import Mathlib

/-!
Verification of the `dnl1` download manager core against its design
specification.  The Python source is shallowly embedded: pure functions
become Lean functions, Python `int` becomes `Int` (with `Int.fdiv` for
the floor division `//`), exceptions become `Except` values, and the
network / filesystem effects become explicit inputs describing the
observable behaviour of the environment during one call.
-/

namespace Dnl

/-- Exceptions that the embedded code can raise.  `downloadError msg`
models `DownloadError(msg)` from `core.py`; `zeroDivisionError` models
Python's built-in `ZeroDivisionError` raised by `//` with divisor 0. -/
inductive PyErr where
  | downloadError (msg : String)
  | zeroDivisionError
  deriving DecidableEq, Repr

/-- `core.py` `DownloadConfig` defaults (only the numeric fields the
verified operations consume). -/
structure DownloadConfig where
  chunk_size : Int := 1024 * 1024
  max_concurrent_downloads : Int := 3
  max_retries : Int := 3
  max_connections_per_file : Int := 16
  buffer_size : Nat := 8192
  deriving Repr

/-- `AsyncDownloader.calculate_chunks(file_size, connections)`:

    chunk_size = file_size // connections
    for i in range(connections):
        start = i * chunk_size
        end = start + chunk_size - 1 if i < connections - 1 else file_size - 1
        chunks.append((start, end))

Python `//` is floor division (`Int.fdiv`); `//` by zero raises
`ZeroDivisionError`; `range(n)` is empty for `n <= 0`. -/
def calculate_chunks (file_size : Int) (connections : Int) :
    Except PyErr (List (Int × Int)) :=
  if connections = 0 then
    .error .zeroDivisionError
  else
    let chunk_size := Int.fdiv file_size connections
    .ok <| (List.range connections.toNat).map fun (i : Nat) =>
      let start := (i : Int) * chunk_size
      let e := if (i : Int) < connections - 1 then start + chunk_size - 1
               else file_size - 1
      (start, e)

example : calculate_chunks 7 3 = .ok [(0, 1), (2, 3), (4, 6)] := by rfl

example : calculate_chunks 10000000 4 =
    .ok [(0, 2499999), (2500000, 4999999), (5000000, 7499999),
         (7500000, 9999999)] := by rfl

example : calculate_chunks 0 1 = .ok [(0, -1)] := by rfl

example : calculate_chunks 5 (-1) = .ok [] := by rfl

example : calculate_chunks 3 5 =
    .ok [(0, -1), (0, -1), (0, -1), (0, -1), (0, 2)] := by rfl

/-- The range produced for index `i` by `calculate_chunks`. -/
def chunkAt (file_size connections : Int) (i : Nat) : Int × Int :=
  let chunk_size := Int.fdiv file_size connections
  ((i : Int) * chunk_size,
   if (i : Int) < connections - 1 then (i : Int) * chunk_size + chunk_size - 1
   else file_size - 1)

theorem calculate_chunks_eq (N C : Int) (hC : C ≠ 0) :
    calculate_chunks N C = .ok ((List.range C.toNat).map (chunkAt N C)) := by
  unfold calculate_chunks
  rw [if_neg hC]
  rfl

theorem chunks_getD (N C : Int) (d : Int × Int) (i : Nat) (hi : i < C.toNat) :
    ((List.range C.toNat).map (chunkAt N C)).getD i d = chunkAt N C i := by
  rw [List.getD_eq_getElem?_getD,
      List.getElem?_eq_getElem (by simpa using hi)]
  simp

theorem chunk_size_bounds (N C : Int) (hN : 1 ≤ N) (hC : 1 ≤ C) :
    0 ≤ Int.fdiv N C ∧ C * Int.fdiv N C ≤ N ∧ N < C * Int.fdiv N C + C := by
  rw [Int.fdiv_eq_ediv _ (by omega : (0:Int) ≤ C)]
  have hmod1 : 0 ≤ N % C := Int.emod_nonneg N (by omega)
  have hmod2 : N % C < C := Int.emod_lt_of_pos N (by omega)
  have hdm : C * (N / C) + N % C = N := Int.ediv_add_emod N C
  refine ⟨Int.ediv_nonneg (by omega) (by omega), by linarith, by linarith⟩

theorem chunkAt_fst (N C : Int) (i : Nat) :
    (chunkAt N C i).1 = (i : Int) * Int.fdiv N C := rfl

theorem chunkAt_snd_mid (N C : Int) (i : Nat) (h : (i : Int) < C - 1) :
    (chunkAt N C i).2 = (i : Int) * Int.fdiv N C + Int.fdiv N C - 1 := by
  simp [chunkAt, h]

theorem chunkAt_snd_last (N C : Int) (i : Nat) (h : ¬ (i : Int) < C - 1) :
    (chunkAt N C i).2 = N - 1 := by
  simp [chunkAt, h]

/-- C1: for every byte length `N ≥ 1` and connection count `C ∈ [1, 64]`,
`calculate_chunks N C` returns exactly `C` ranges; the first starts at 0,
consecutive ranges are contiguous (hence the list is ordered), the last
ends at `N - 1`, the union of the ranges is exactly `[0, N-1]`, and no two
distinct ranges overlap; moreover `calculate_chunks 7 3` returns
`[(0,1),(2,3),(4,6)]` with the remainder absorbed by the last range. -/
theorem chunk_plan_partition (N C : Int) (hN : 1 ≤ N) (hC1 : 1 ≤ C)
    (hC64 : C ≤ 64) :
    ∃ l, calculate_chunks N C = .ok l ∧
      l.length = C.toNat ∧
      (l.getD 0 (0, 0)).1 = 0 ∧
      (∀ i : Nat, i + 1 < l.length →
        (l.getD i (0, 0)).2 + 1 = (l.getD (i + 1) (0, 0)).1) ∧
      (l.getD (l.length - 1) (0, 0)).2 = N - 1 ∧
      (∀ b : Int, (0 ≤ b ∧ b ≤ N - 1) ↔ ∃ p ∈ l, p.1 ≤ b ∧ b ≤ p.2) ∧
      (∀ i j : Nat, i < j → j < l.length → ∀ b : Int,
        ¬ ((l.getD i (0, 0)).1 ≤ b ∧ b ≤ (l.getD i (0, 0)).2 ∧
           (l.getD j (0, 0)).1 ≤ b ∧ b ≤ (l.getD j (0, 0)).2)) ∧
      calculate_chunks 7 3 = .ok [(0, 1), (2, 3), (4, 6)] := by
  have hC0 : C ≠ 0 := by omega
  obtain ⟨hcs0, hcsle, hcslt⟩ := chunk_size_bounds N C hN hC1
  refine ⟨(List.range C.toNat).map (chunkAt N C), calculate_chunks_eq N C hC0,
    by simp, ?_, ?_, ?_, ?_, ?_, by rfl⟩
  · rw [chunks_getD N C _ 0 (by omega), chunkAt_fst]
    simp
  · intro i hi
    rw [List.length_map, List.length_range] at hi
    rw [chunks_getD N C _ i (by omega), chunks_getD N C _ (i + 1) (by omega)]
    have hiC : (i : Int) < C - 1 := by omega
    rw [chunkAt_snd_mid N C i hiC, chunkAt_fst]
    push_cast
    ring
  · rw [List.length_map, List.length_range,
      chunks_getD N C _ (C.toNat - 1) (by omega)]
    exact chunkAt_snd_last N C _ (by omega)
  · intro b
    constructor
    · rintro ⟨hb0, hbN⟩
      by_cases hcase : (C - 1) * Int.fdiv N C ≤ b
      · refine ⟨chunkAt N C (C.toNat - 1),
          List.mem_map_of_mem _ (List.mem_range.mpr (by omega)), ?_, ?_⟩
        · rw [chunkAt_fst]
          have hcast : ((C.toNat - 1 : Nat) : Int) = C - 1 := by omega
          rw [hcast]
          exact hcase
        · rw [chunkAt_snd_last N C _ (by omega)]
          exact hbN
      · have hblt : b < (C - 1) * Int.fdiv N C := lt_of_not_le hcase
        have hcs1 : 0 < Int.fdiv N C := by
          rcases lt_or_eq_of_le hcs0 with h | h
          · exact h
          · exfalso
            rw [← h, mul_zero] at hblt
            omega
        have hq0 : 0 ≤ b / Int.fdiv N C := Int.ediv_nonneg hb0 (le_of_lt hcs1)
        have hqm : Int.fdiv N C * (b / Int.fdiv N C) + b % Int.fdiv N C = b :=
          Int.ediv_add_emod b (Int.fdiv N C)
        have hr0 : 0 ≤ b % Int.fdiv N C := Int.emod_nonneg b (by omega)
        have hr1 : b % Int.fdiv N C < Int.fdiv N C := Int.emod_lt_of_pos b hcs1
        have hcomm : (C - 1) * Int.fdiv N C = Int.fdiv N C * (C - 1) :=
          mul_comm _ _
        have hqC : b / Int.fdiv N C < C - 1 := by
          have hprod : Int.fdiv N C * (b / Int.fdiv N C) <
              Int.fdiv N C * (C - 1) := by linarith
          exact lt_of_mul_lt_mul_left hprod (le_of_lt hcs1)
        refine ⟨chunkAt N C (b / Int.fdiv N C).toNat,
          List.mem_map_of_mem _ (List.mem_range.mpr (by omega)), ?_, ?_⟩
        · rw [chunkAt_fst]
          have hcast : (((b / Int.fdiv N C).toNat : Nat) : Int) =
              b / Int.fdiv N C := by omega
          rw [hcast, mul_comm]
          linarith
        · have hcast : (((b / Int.fdiv N C).toNat : Nat) : Int) =
              b / Int.fdiv N C := by omega
          rw [chunkAt_snd_mid N C _ (by rw [hcast]; exact hqC), hcast,
            mul_comm]
          linarith
    · rintro ⟨p, hp, hp1, hp2⟩
      obtain ⟨i, hi, rfl⟩ := List.mem_map.mp hp
      rw [List.mem_range] at hi
      have hfst : 0 ≤ (chunkAt N C i).1 := by
        rw [chunkAt_fst]
        exact mul_nonneg (by positivity) hcs0
      refine ⟨by linarith, ?_⟩
      by_cases hic : (i : Int) < C - 1
      · rw [chunkAt_snd_mid N C i hic] at hp2
        have h1 : ((i : Int) + 1) * Int.fdiv N C ≤ C * Int.fdiv N C :=
          mul_le_mul_of_nonneg_right (by omega) hcs0
        have h2 : ((i : Int) + 1) * Int.fdiv N C =
            (i : Int) * Int.fdiv N C + Int.fdiv N C := by ring
        linarith
      · rw [chunkAt_snd_last N C i hic] at hp2
        exact hp2
  · intro i j hij hj b
    rw [List.length_map, List.length_range] at hj
    rintro ⟨hi1, hi2, hj1, hj2⟩
    rw [chunks_getD N C _ i (by omega)] at hi1 hi2
    rw [chunks_getD N C _ j (by omega)] at hj1 hj2
    have hic : (i : Int) < C - 1 := by omega
    rw [chunkAt_snd_mid N C i hic] at hi2
    rw [chunkAt_fst] at hj1
    have h1 : ((i : Int) + 1) * Int.fdiv N C ≤ (j : Int) * Int.fdiv N C :=
      mul_le_mul_of_nonneg_right (by exact_mod_cast by omega) hcs0
    have h2 : ((i : Int) + 1) * Int.fdiv N C =
        (i : Int) * Int.fdiv N C + Int.fdiv N C := by ring
    linarith

/-- Witness for C1: the theorem applied at `N = 7`, `C = 3`. -/
theorem chunk_plan_partition_witness :
    ∃ l, calculate_chunks 7 3 = .ok l ∧
      l.length = (3 : Int).toNat ∧
      (l.getD 0 (0, 0)).1 = 0 ∧
      (∀ i : Nat, i + 1 < l.length →
        (l.getD i (0, 0)).2 + 1 = (l.getD (i + 1) (0, 0)).1) ∧
      (l.getD (l.length - 1) (0, 0)).2 = 7 - 1 ∧
      (∀ b : Int, (0 ≤ b ∧ b ≤ 7 - 1) ↔ ∃ p ∈ l, p.1 ≤ b ∧ b ≤ p.2) ∧
      (∀ i j : Nat, i < j → j < l.length → ∀ b : Int,
        ¬ ((l.getD i (0, 0)).1 ≤ b ∧ b ≤ (l.getD i (0, 0)).2 ∧
           (l.getD j (0, 0)).1 ≤ b ∧ b ≤ (l.getD j (0, 0)).2)) ∧
      calculate_chunks 7 3 = .ok [(0, 1), (2, 3), (4, 6)] :=
  chunk_plan_partition 7 3 (by norm_num) (by norm_num) (by norm_num)

/-- C5 (amended): `calculate_chunks` performs no input validation.
Only `connections = 0` fails, with Python's `ZeroDivisionError` from the
`//`; for `connections < 0` the function silently returns the empty list,
and for any other input — including `file_size < 1` — it silently returns
a list of `connections` (possibly degenerate) ranges.  No
`InvalidPlanError` exists in the code. -/
theorem chunk_plan_no_validation (N C : Int) :
    (C = 0 → calculate_chunks N C = .error .zeroDivisionError) ∧
    (C < 0 → calculate_chunks N C = .ok []) ∧
    (C ≠ 0 → ∃ l, calculate_chunks N C = .ok l ∧ l.length = C.toNat) := by
  refine ⟨fun h => by simp [calculate_chunks, h], fun h => ?_, fun h => ?_⟩
  · rw [calculate_chunks_eq N C (by omega)]
    have : C.toNat = 0 := by omega
    rw [this]
    rfl
  · exact ⟨_, calculate_chunks_eq N C h, by simp⟩

/-- Witness for the amended C5, at `connections = 0`, `connections = -1`
and `(file_size, connections) = (0, 3)`. -/
theorem chunk_plan_no_validation_witness :
    calculate_chunks 0 0 = .error .zeroDivisionError ∧
    calculate_chunks 5 (-1) = .ok [] ∧
    ∃ l, calculate_chunks 0 3 = .ok l ∧ l.length = (3 : Int).toNat :=
  ⟨(chunk_plan_no_validation 0 0).1 rfl,
   (chunk_plan_no_validation 5 (-1)).2.1 (by norm_num),
   (chunk_plan_no_validation 0 3).2.2 (by norm_num)⟩

/-- Counterexample to C5 as stated: `calculate_chunks` called with
`file_size = 0 < 1` does not fail — it silently returns the degenerate
range list `[(0, -1)]`. -/
theorem chunk_plan_validation_counterexample :
    calculate_chunks 0 1 = .ok [(0, -1)] := by rfl

/-! ### Metadata probe (`AsyncDownloader.get_file_info`) -/

/-- A HEAD response as observed by `get_file_info`: the HTTP status, the
response headers, and the last path component of the final URL
(`Path(response.url.name).name`). -/
structure HeadResponse where
  status : Nat
  headers : List (String × String)
  urlName : String
  deriving DecidableEq, Repr

/-- `response.headers.get(k)`: the first binding for the key, if any. -/
def headers_get (hs : List (String × String)) (k : String) : Option String :=
  (hs.find? fun p => p.1 == k).map Prod.snd

/-- Value of a nonempty all-digit string, else `none`. -/
def digitsVal? (l : List Char) : Option Nat :=
  if l ≠ [] ∧ l.all Char.isDigit then
    some (l.foldl (fun a c => a * 10 + (c.toNat - 48)) 0)
  else none

/-- Python `int(s)` on the header strings this code meets: an optional
minus sign followed by decimal digits; anything else raises
`ValueError` (modelled as `none`). -/
def pyInt? (s : String) : Option Int :=
  match s.data with
  | Char.ofNat 45 :: rest => (digitsVal? rest).map fun n => -(n : Int)
  | l => (digitsVal? l).map fun n => (n : Int)

/-- The dictionary returned by `AsyncDownloader.get_file_info`. -/
structure FileInfo where
  size : Int
  resume_support : Bool
  type : String
  filename : String
  etag : Option String
  last_modified : Option String
  deriving DecidableEq, Repr

/-- The dictionary `get_file_info` builds from a non-error response,
given the parsed `content-length` value (0 when the header is absent,
via `headers.get('content-length', 0)`). -/
def mk_file_info (r : HeadResponse) (size : Int) : FileInfo :=
  { size := size,
    resume_support := (headers_get r.headers "accept-ranges").isSome,
    type := (headers_get r.headers "content-type").getD
      "application/octet-stream",
    filename := r.urlName,
    etag := headers_get r.headers "etag",
    last_modified := headers_get r.headers "last-modified" }

/-- `AsyncDownloader.get_file_info(url)`.  The argument is the observed
outcome of the HEAD probe: a transport error message, or a response.
`raise_for_status` raises for status ≥ 400; every exception inside the
`try` is re-raised as `DownloadError('Failed to get file info: ...')`.
A missing `content-length` header defaults to `0` and is NOT an error. -/
def get_file_info (probe : Except String HeadResponse) :
    Except PyErr FileInfo :=
  match probe with
  | .error msg =>
    .error (.downloadError ("Failed to get file info: " ++ msg))
  | .ok r =>
    if 400 ≤ r.status then
      .error (.downloadError "Failed to get file info: HTTP status error")
    else
      match headers_get r.headers "content-length" with
      | none => .ok (mk_file_info r 0)
      | some s =>
        match pyInt? s with
        | none =>
          .error (.downloadError "Failed to get file info: invalid literal")
        | some n => .ok (mk_file_info r n)

/-! ### The download engine (`AsyncDownloader.download_file`) -/

/-- True exactly for the results Python's
`isinstance(r, Exception)` filter selects. -/
def isExn : Except PyErr Int → Bool
  | .error _ => true
  | .ok _ => false

/-- `errors[0]` of the gathered results: the first exception, in task
order, if any. -/
def first_error : List (Except PyErr Int) → Option PyErr
  | [] => none
  | .error e :: _ => some e
  | .ok _ :: rest => first_error rest

/-- `sum(r for r in results if isinstance(r, int))`. -/
def sum_ints (rs : List (Except PyErr Int)) : Int :=
  rs.foldl (fun acc r => match r with | .ok n => acc + n | .error _ => acc) 0

/-- Message text attached when an exception is interpolated. -/
def describeErr : PyErr → String
  | .downloadError m => m
  | .zeroDivisionError => "integer division or modulo by zero"

/-- Outcome of one `download_file` call: the returned boolean, the
exception (if any) that reached the outer `except` handler before being
logged and swallowed, and whether the destination path exists after the
call (the handler unlinks the path whenever it exists on failure). -/
structure DownloadFileResult where
  success : Bool
  raised : Option PyErr
  fileExists : Bool
  deriving DecidableEq, Repr

/-- `connections = connections or self.system_info.get_optimal_connections()`:
both `None` and `0` are falsy and fall back to the probe's value. -/
def resolve_connections (connections : Option Int) (optimal : Int) : Int :=
  match connections with
  | none => optimal
  | some v => if v = 0 then optimal else v

/-- The error-check and size-check stage of `download_file` applied to
the gathered chunk results, inside the opened output file:

    errors = [r for r in results if isinstance(r, Exception)]
    if errors: raise DownloadError(f"Download failed: \x7berrors[0]\x7d")
    total_downloaded = sum(r for r in results if isinstance(r, int))
    if total_downloaded != file_size: raise DownloadError("Download size mismatch")
    return True

with the outer `except` handler unlinking the path and returning `False`
on any raise. -/
def gather_outcome (file_size : Int) (results : List (Except PyErr Int)) :
    DownloadFileResult :=
  match first_error results with
  | some e =>
    { success := false,
      raised := some (.downloadError ("Download failed: " ++ describeErr e)),
      fileExists := false }
  | none =>
    if sum_ints results ≠ file_size then
      { success := false,
        raised := some (.downloadError "Download size mismatch"),
        fileExists := false }
    else
      { success := true, raised := none, fileExists := true }

/-- `AsyncDownloader.download_file(url, output_path, connections)`.
`infoRes` is the outcome of the inner `get_file_info` call, and
`chunkResult` maps each planned range to the observed outcome of its
`download_chunk` task (the value `asyncio.gather` collects for it).
Every failure path flows to the outer `except` handler, which deletes
the destination path if it exists and returns `False`. -/
def download_file (infoRes : Except PyErr FileInfo)
    (connections : Option Int) (optimal : Int)
    (chunkResult : Int × Int → Except PyErr Int) : DownloadFileResult :=
  match infoRes with
  | .error e => { success := false, raised := some e, fileExists := false }
  | .ok info =>
    if info.size = 0 then
      { success := false, raised := some (.downloadError "File size unknown"),
        fileExists := false }
    else
      match calculate_chunks info.size
          (resolve_connections connections optimal) with
      | .error e =>
        { success := false, raised := some e, fileExists := false }
      | .ok chunks => gather_outcome info.size (chunks.map chunkResult)

/-! ### The HTTP handler (`HTTPHandler.download`) -/

/-- `DownloadInfo` from `protocols.py` (the transfer record).
`progress` is the float field, modelled as an exact rational. -/
structure DownloadInfo where
  url : String
  file_type : String
  status : String
  progress : Rat
  started_at : Nat
  completed_at : Option Nat
  file_size : Option Int
  download_path : String
  checksum : Option String
  speed : Option String
  error : Option String
  metadata : List (String × String)
  deriving DecidableEq, Repr

/-- The `file_info` dictionary stored into `download_info.metadata`. -/
def file_info_meta (info : FileInfo) : List (String × String) :=
  [("size", toString info.size),
   ("resume_support", toString info.resume_support),
   ("type", info.type),
   ("filename", info.filename),
   ("etag", info.etag.getD "None"),
   ("last_modified", info.last_modified.getD "None")]

/-- `HTTPHandler.download(url, output_path, progress)`: builds the
`starting` record, probes metadata, runs `download_file` (with
`config.max_connections_per_file` connections), and finalises the
record.  An exception from the probe is re-raised as
`DownloadError('HTTP download failed: ...')` after marking the local
record failed (the record is then lost to the caller); a `False` from
`download_file` marks the returned record `failed` with error
`'Download failed'`.  The handler's own probe and the probe repeated
inside `download_file` are assumed to observe the same response.  The
second component of the result is whether the destination path exists
afterwards. -/
def http_download (url output_path : String)
    (probe : Except String HeadResponse) (optimal : Int)
    (chunkResult : Int × Int → Except PyErr Int)
    (started finished : Nat) (config : DownloadConfig) :
    Except PyErr (DownloadInfo × Bool) :=
  let base : DownloadInfo :=
    { url := url, file_type := "http", status := "starting", progress := 0,
      started_at := started, completed_at := none, file_size := none,
      download_path := output_path, checksum := none, speed := none,
      error := none, metadata := [] }
  match get_file_info probe with
  | .error e =>
    .error (.downloadError ("HTTP download failed: " ++ describeErr e))
  | .ok info =>
    let d1 : DownloadInfo :=
      { base with
        file_size := some info.size,
        metadata := file_info_meta info,
        status := "downloading" }
    let r := download_file (.ok info)
      (some config.max_connections_per_file) optimal chunkResult
    if r.success then
      .ok ({ d1 with
             status := "completed",
             progress := 100,
             completed_at := some finished }, r.fileExists)
    else
      .ok ({ d1 with
             status := "failed",
             error := some "Download failed" }, r.fileExists)

theorem download_file_ok_eq (info : FileInfo) (connections : Option Int)
    (optimal : Int) (chunkResult : Int × Int → Except PyErr Int) :
    download_file (.ok info) connections optimal chunkResult =
      if info.size = 0 then
        { success := false,
          raised := some (.downloadError "File size unknown"),
          fileExists := false }
      else
        match calculate_chunks info.size
            (resolve_connections connections optimal) with
        | .error e => { success := false, raised := some e,
                        fileExists := false }
        | .ok chunks => gather_outcome info.size (chunks.map chunkResult) :=
  rfl

theorem first_error_eq_none (rs : List (Except PyErr Int))
    (h : ∀ r ∈ rs, isExn r = false) : first_error rs = none := by
  induction rs with
  | nil => rfl
  | cons r rest ih =>
    cases r with
    | error e =>
      have := h _ (List.mem_cons_self _ _)
      simp [isExn] at this
    | ok n => exact ih fun r hr => h r (List.mem_cons_of_mem _ hr)

theorem first_error_isSome (rs : List (Except PyErr Int))
    (h : ∃ r ∈ rs, isExn r = true) : ∃ e, first_error rs = some e := by
  induction rs with
  | nil =>
    obtain ⟨r, hr, _⟩ := h
    exact absurd hr (by simp)
  | cons r rest ih =>
    cases r with
    | error e => exact ⟨e, rfl⟩
    | ok n =>
      obtain ⟨r, hr, hx⟩ := h
      rcases List.mem_cons.mp hr with h1 | h1
      · rw [h1] at hx
        simp [isExn] at hx
      · exact ih ⟨r, h1, hx⟩

/-- C2: whenever some chunk task of a known-length transfer reports a
fatal error, `HTTPHandler.download` returns a record whose status is
`failed` (with the `Download failed` error message) and the destination
path does not exist afterwards — `download_file` caught the aggregated
`DownloadError`, deleted the partially written file, and returned
`False`. -/
theorem http_download_fatal_chunk_failure
    (url output_path : String) (probe : Except String HeadResponse)
    (info : FileInfo) (optimal : Int)
    (chunkResult : Int × Int → Except PyErr Int)
    (started finished : Nat) (config : DownloadConfig)
    (chunks : List (Int × Int))
    (hinfo : get_file_info probe = .ok info)
    (hsize : info.size ≠ 0)
    (hcc : calculate_chunks info.size
      (resolve_connections (some config.max_connections_per_file) optimal) =
      .ok chunks)
    (hfail : ∃ p ∈ chunks, isExn (chunkResult p) = true) :
    ∃ d, http_download url output_path probe optimal chunkResult
        started finished config = .ok (d, false) ∧
      d.status = "failed" ∧ d.error = some "Download failed" := by
  have hx : ∃ r ∈ chunks.map chunkResult, isExn r = true := by
    obtain ⟨p, hp, hxp⟩ := hfail
    exact ⟨chunkResult p, List.mem_map_of_mem _ hp, hxp⟩
  obtain ⟨e, he⟩ := first_error_isSome _ hx
  have hdf : download_file (.ok info) (some config.max_connections_per_file)
      optimal chunkResult =
      { success := false,
        raised := some (.downloadError ("Download failed: " ++ describeErr e)),
        fileExists := false } := by
    rw [download_file_ok_eq, if_neg hsize, hcc]
    show gather_outcome info.size (chunks.map chunkResult) = _
    unfold gather_outcome
    rw [he]
  simp only [http_download, hinfo, hdf]
  exact ⟨_, rfl, rfl, rfl⟩

/-- Witness for C2, at a 10-byte resource split over 2 connections with
every chunk task failing. -/
theorem http_download_fatal_chunk_failure_witness :
    ∃ d, http_download "u" "p"
        (.ok ⟨200, [("content-length", "10")], "f"⟩) 4
        (fun _ => .error (.downloadError "boom")) 0 1
        { max_connections_per_file := 2 } = .ok (d, false) ∧
      d.status = "failed" ∧ d.error = some "Download failed" :=
  http_download_fatal_chunk_failure "u" "p"
    (.ok ⟨200, [("content-length", "10")], "f"⟩)
    (mk_file_info ⟨200, [("content-length", "10")], "f"⟩ 10) 4
    (fun _ => .error (.downloadError "boom")) 0 1
    { max_connections_per_file := 2 } [(0, 4), (5, 9)]
    (by rfl) (by decide) (by rfl) ⟨(0, 4), by simp, rfl⟩

/-- C3: when every chunk task succeeds, `download_file` succeeds exactly
when the summed byte counts equal the planned byte length; on a mismatch
it raises the `Download size mismatch` `DownloadError` internally,
deletes the output file and returns `False`, and on a match it returns
`True` with the output file in place. -/
theorem download_file_size_check
    (info : FileInfo) (connections : Option Int) (optimal : Int)
    (chunkResult : Int × Int → Except PyErr Int)
    (chunks : List (Int × Int))
    (hsize : info.size ≠ 0)
    (hcc : calculate_chunks info.size
      (resolve_connections connections optimal) = .ok chunks)
    (hok : ∀ p ∈ chunks, isExn (chunkResult p) = false) :
    ((download_file (.ok info) connections optimal chunkResult).success =
        true ↔ sum_ints (chunks.map chunkResult) = info.size) ∧
    (sum_ints (chunks.map chunkResult) ≠ info.size →
      download_file (.ok info) connections optimal chunkResult =
        { success := false,
          raised := some (.downloadError "Download size mismatch"),
          fileExists := false }) ∧
    (sum_ints (chunks.map chunkResult) = info.size →
      download_file (.ok info) connections optimal chunkResult =
        { success := true, raised := none, fileExists := true }) := by
  have hnone : first_error (chunks.map chunkResult) = none := by
    refine first_error_eq_none _ fun r hr => ?_
    obtain ⟨p, hp, rfl⟩ := List.mem_map.mp hr
    exact hok p hp
  have hdf : download_file (.ok info) connections optimal chunkResult =
      gather_outcome info.size (chunks.map chunkResult) := by
    rw [download_file_ok_eq, if_neg hsize, hcc]
  rw [hdf]
  unfold gather_outcome
  simp only [hnone]
  by_cases hs : sum_ints (chunks.map chunkResult) = info.size
  · simp [hs]
  · simp [hs]

/-- Witness for C3: a 10-byte plan over 2 connections where both chunk
tasks return their exact range sizes (5 + 5 = 10). -/
theorem download_file_size_check_witness :
    ((download_file
        (.ok { size := 10, resume_support := false, type := "t",
               filename := "f", etag := none, last_modified := none })
        (some 2) 4 (fun p => .ok (p.2 - p.1 + 1))).success = true ↔
      sum_ints ([(0, 4), (5, 9)].map fun p => .ok (p.2 - p.1 + 1)) = 10) ∧
    (sum_ints ([(0, 4), (5, 9)].map fun p => .ok (p.2 - p.1 + 1)) ≠ 10 →
      download_file
        (.ok { size := 10, resume_support := false, type := "t",
               filename := "f", etag := none, last_modified := none })
        (some 2) 4 (fun p => .ok (p.2 - p.1 + 1)) =
        { success := false,
          raised := some (.downloadError "Download size mismatch"),
          fileExists := false }) ∧
    (sum_ints ([(0, 4), (5, 9)].map fun p => .ok (p.2 - p.1 + 1)) = 10 →
      download_file
        (.ok { size := 10, resume_support := false, type := "t",
               filename := "f", etag := none, last_modified := none })
        (some 2) 4 (fun p => .ok (p.2 - p.1 + 1)) =
        { success := true, raised := none, fileExists := true }) :=
  download_file_size_check
    { size := 10, resume_support := false, type := "t", filename := "f",
      etag := none, last_modified := none }
    (some 2) 4 (fun p => .ok (p.2 - p.1 + 1)) [(0, 4), (5, 9)]
    (by decide) (by rfl) (by decide)

/-- Counterexample to C4 as stated: a completed header probe whose
response omits the `content-length` header does NOT fail — it returns
metadata with byte length 0 (the `headers.get('content-length', 0)`
default), which is not a usable length. -/
theorem get_file_info_missing_length_counterexample :
    get_file_info (.ok ⟨200, [], "f"⟩) =
      .ok { size := 0, resume_support := false,
            type := "application/octet-stream", filename := "f",
            etag := none, last_modified := none } := by rfl

/-- C4 (amended): `get_file_info` fails with `DownloadError` whenever
the header probe cannot be completed (transport failure, HTTP error
status, or an unparseable length value); but when the response merely
omits the length header it returns metadata whose byte length is 0, and
that unusable length is only rejected later, by `download_file`, as
`File size unknown`. -/
theorem get_file_info_failure_modes
    (msg s : String) (r : HeadResponse) (info : FileInfo)
    (connections : Option Int) (optimal : Int)
    (chunkResult : Int × Int → Except PyErr Int) :
    (get_file_info (.error msg) =
      .error (.downloadError ("Failed to get file info: " ++ msg))) ∧
    (400 ≤ r.status → get_file_info (.ok r) =
      .error (.downloadError "Failed to get file info: HTTP status error")) ∧
    (r.status < 400 → headers_get r.headers "content-length" = some s →
      pyInt? s = none →
      get_file_info (.ok r) =
        .error (.downloadError "Failed to get file info: invalid literal")) ∧
    (r.status < 400 → headers_get r.headers "content-length" = none →
      get_file_info (.ok r) = .ok (mk_file_info r 0)) ∧
    (info.size = 0 →
      download_file (.ok info) connections optimal chunkResult =
        { success := false,
          raised := some (.downloadError "File size unknown"),
          fileExists := false }) := by
  have hok : ∀ s : HeadResponse, get_file_info (.ok s) =
      if 400 ≤ s.status then
        .error (.downloadError "Failed to get file info: HTTP status error")
      else
        match headers_get s.headers "content-length" with
        | none => .ok (mk_file_info s 0)
        | some v =>
          match pyInt? v with
          | none =>
            .error (.downloadError "Failed to get file info: invalid literal")
          | some n => .ok (mk_file_info s n) := fun _ => rfl
  refine ⟨rfl, fun h => ?_, fun h1 h2 h3 => ?_, fun h1 h2 => ?_,
    fun h => ?_⟩
  · rw [hok, if_pos h]
  · rw [hok, if_neg (by omega : ¬ 400 ≤ r.status)]
    simp only [h2, h3]
  · rw [hok, if_neg (by omega : ¬ 400 ≤ r.status), h2]
  · rw [download_file_ok_eq, if_pos h]

/-- Witness for the amended C4: a transport failure, a 404 probe, a
200 probe with the unparseable length `"abc"`, a 200 probe without
`content-length`, and the deferred rejection of the resulting size-0
metadata by `download_file`. -/
theorem get_file_info_failure_modes_witness :
    (get_file_info (.error "timeout") =
      .error (.downloadError ("Failed to get file info: " ++ "timeout"))) ∧
    (get_file_info (.ok ⟨404, [], "x"⟩) =
      .error (.downloadError "Failed to get file info: HTTP status error")) ∧
    (get_file_info (.ok ⟨200, [("content-length", "abc")], "f"⟩) =
      .error (.downloadError "Failed to get file info: invalid literal")) ∧
    (get_file_info (.ok ⟨200, [], "f"⟩) =
      .ok (mk_file_info ⟨200, [], "f"⟩ 0)) ∧
    (download_file (.ok (mk_file_info ⟨200, [], "f"⟩ 0)) none 4
        (fun _ => .ok 0) =
      { success := false,
        raised := some (.downloadError "File size unknown"),
        fileExists := false }) :=
  ⟨(get_file_info_failure_modes "timeout" "abc" ⟨404, [], "x"⟩
      (mk_file_info ⟨200, [], "f"⟩ 0) none 4 fun _ => .ok 0).1,
   (get_file_info_failure_modes "timeout" "abc" ⟨404, [], "x"⟩
      (mk_file_info ⟨200, [], "f"⟩ 0) none 4 fun _ => .ok 0).2.1
     (by norm_num),
   (get_file_info_failure_modes "timeout" "abc"
      ⟨200, [("content-length", "abc")], "f"⟩
      (mk_file_info ⟨200, [], "f"⟩ 0) none 4 fun _ => .ok 0).2.2.1
     (by norm_num) (by rfl) (by rfl),
   (get_file_info_failure_modes "timeout" "abc" ⟨200, [], "f"⟩
      (mk_file_info ⟨200, [], "f"⟩ 0) none 4 fun _ => .ok 0).2.2.2.1
     (by norm_num) (by rfl),
   (get_file_info_failure_modes "timeout" "abc" ⟨200, [], "f"⟩
      (mk_file_info ⟨200, [], "f"⟩ 0) none 4 fun _ => .ok 0).2.2.2.2
     (by decide)⟩

/-! ### One chunk fetch (`AsyncDownloader.download_chunk`) -/

/-- The observable outcome the network produces for one ranged GET:
a transport-level failure, or a response with a status code and a body
delivered as the successive data chunks `iter_chunked` yields (each a
byte list). -/
inductive FetchOutcome where
  | timeout
  | connectionReset
  | status (code : Nat) (body : List (List Nat))
  deriving DecidableEq, Repr

/-- The spec's transient class: timeouts, connection resets and
5xx-class responses. -/
def isTransient : FetchOutcome → Bool
  | .timeout => true
  | .connectionReset => true
  | .status code _ => decide (500 ≤ code ∧ code ≤ 599)

/-- Every outcome `download_chunk` treats as a failure: transport-level
failures and any response `raise_for_status` rejects (status ≥ 400,
which covers both the permanent 4xx and the transient 5xx classes). -/
def isFetchFailure : FetchOutcome → Bool
  | .timeout => true
  | .connectionReset => true
  | .status code _ => decide (400 ≤ code)

/-- A positioned write of `data` into the shared output file at byte
offset `pos` (the file is a partial map from offset to byte). -/
def write_at (file : Int → Option Nat) (pos : Int) (data : List Nat) :
    Int → Option Nat :=
  fun i =>
    if pos ≤ i ∧ i < pos + data.length then some (data.getD (i - pos).toNat 0)
    else file i

/-- The body loop of `download_chunk`: each received chunk is written at
`start + bytes_downloaded - len(chunk)`, i.e. at `start` plus the bytes
written so far; returns the final file and `bytes_downloaded`. -/
def write_chunks (file : Int → Option Nat) (start : Int)
    (body : List (List Nat)) : (Int → Option Nat) × Int :=
  body.foldl
    (fun acc c => (write_at acc.1 (start + acc.2) c, acc.2 + (c.length : Int)))
    (file, 0)

/-- `AsyncDownloader.download_chunk(url, start, end, file, ...)`.
`attempts n` is the outcome the network would produce for the `n`-th
attempt at this byte range; the code issues exactly ONE request (it
only ever consults `attempts 0`) and never reads `config.max_retries`.
`raise_for_status` raises for status ≥ 400, and every exception is
wrapped as `DownloadError('Chunk download failed: ...')`. -/
def download_chunk (attempts : Nat → FetchOutcome) (start e : Int)
    (file : Int → Option Nat) :
    Except PyErr (Int × (Int → Option Nat)) :=
  match attempts 0 with
  | .timeout => .error (.downloadError "Chunk download failed: timeout")
  | .connectionReset =>
    .error (.downloadError "Chunk download failed: connection reset")
  | .status code body =>
    if 400 ≤ code then
      .error (.downloadError "Chunk download failed: HTTP status error")
    else
      let r := write_chunks file start body
      .ok (r.2, r.1)

/-- A network whose first attempt times out (a transient failure) and
which would serve the range successfully on every later attempt. -/
def retryScenario : Nat → FetchOutcome :=
  fun n => if n = 0 then .timeout else .status 200 [[7]]

/-- Counterexample to C6 as stated: the first attempt fails with a
transient timeout, the second attempt would succeed — well within the
default retry budget of 3 — yet `download_chunk` surfaces the failure
immediately: the code has no retry loop. -/
theorem download_chunk_no_retry_counterexample :
    isTransient (retryScenario 0) = true ∧
    retryScenario 1 = .status 200 [[7]] ∧
    ({} : DownloadConfig).max_retries = 3 ∧
    download_chunk retryScenario 0 5 (fun _ => none) =
      .error (.downloadError "Chunk download failed: timeout") :=
  ⟨rfl, rfl, rfl, rfl⟩

/-- C6 (amended): each `download_chunk` invocation performs exactly one
attempt — its result depends only on the first outcome the network
produces, with no retry and no backoff (`config.max_retries` is never
consulted) — and ANY failure, transient or permanent, immediately
surfaces past it as a wrapped `DownloadError`. -/
theorem download_chunk_single_attempt
    (a1 a2 : Nat → FetchOutcome) (start e : Int) (file : Int → Option Nat)
    (h : a1 0 = a2 0) :
    download_chunk a1 start e file = download_chunk a2 start e file ∧
    (isFetchFailure (a1 0) = true →
      ∃ msg, download_chunk a1 start e file =
        .error (.downloadError msg)) ∧
    (isTransient (a1 0) = true →
      ∃ msg, download_chunk a1 start e file =
        .error (.downloadError msg)) := by
  have hfail : isFetchFailure (a1 0) = true →
      ∃ msg, download_chunk a1 start e file =
        .error (.downloadError msg) := by
    intro ht
    cases hA : a1 0 with
    | timeout =>
      exact ⟨_, by unfold download_chunk; rw [hA]⟩
    | connectionReset =>
      exact ⟨_, by unfold download_chunk; rw [hA]⟩
    | status code body =>
      rw [hA] at ht
      simp only [isFetchFailure, decide_eq_true_eq] at ht
      refine ⟨"Chunk download failed: HTTP status error", ?_⟩
      unfold download_chunk
      rw [hA]
      show (if 400 ≤ code then _ else _) = _
      rw [if_pos (by omega : 400 ≤ code)]
  refine ⟨by unfold download_chunk; rw [h], hfail, fun ht => hfail ?_⟩
  cases hA : a1 0 with
  | timeout => rfl
  | connectionReset => rfl
  | status code body =>
    rw [hA] at ht
    simp only [isTransient, decide_eq_true_eq] at ht
    simp only [isFetchFailure, decide_eq_true_eq]
    omega

/-- Witness for the amended C6: two networks agreeing on the first
attempt produce identical results, the transient first-attempt timeout
of `retryScenario` surfaces, and so does a permanent 404 response. -/
theorem download_chunk_single_attempt_witness :
    (download_chunk retryScenario 0 5 (fun _ => none) =
      download_chunk (fun _ => .timeout) 0 5 (fun _ => none)) ∧
    (∃ msg, download_chunk retryScenario 0 5 (fun _ => none) =
      .error (.downloadError msg)) ∧
    ∃ msg, download_chunk (fun _ => .status 404 []) 0 5 (fun _ => none) =
      .error (.downloadError msg) :=
  ⟨(download_chunk_single_attempt retryScenario (fun _ => .timeout) 0 5
      (fun _ => none) rfl).1,
   (download_chunk_single_attempt retryScenario (fun _ => .timeout) 0 5
      (fun _ => none) rfl).2.2 rfl,
   (download_chunk_single_attempt (fun _ => .status 404 [])
      (fun _ => .status 404 []) 0 5 (fun _ => none) rfl).2.1 (by decide)⟩

/-! ### Protocol dispatch (`ProtocolManager`) -/

/-- A registered protocol handler, reduced to its dispatch-relevant
surface: its tag and its `can_handle` predicate. -/
structure Handler where
  tag : String
  can_handle : String → Bool

/-- `ProtocolManager.get_handler(url)`: scan the registered handlers in
order and return the first whose `can_handle(url)` is true, else
`None` (the `for`/early-`return` loop, as structural recursion). -/
def get_handler : List Handler → String → Option Handler
  | [], _ => none
  | h :: rest, url =>
    if h.can_handle url then some h else get_handler rest url

/-- `ProtocolManager.download(url, ...)` up to its dispatch decision:
raises `DownloadError(f'No handler found for URL: ...')` when
`get_handler` returns `None`, otherwise dispatches to the resolved
handler. -/
def pm_download (handlers : List Handler) (url : String) :
    Except PyErr Handler :=
  match get_handler handlers url with
  | none => .error (.downloadError ("No handler found for URL: " ++ url))
  | some h => .ok h

/-- Python `s.startswith(p)`: the characters of `p` are a prefix of the
characters of `s`. -/
def str_startswith (s p : String) : Bool := List.isPrefixOf p.data s.data

/-- Python `s.endswith(p)`: the characters of `p` are a suffix of the
characters of `s`. -/
def str_endswith (s p : String) : Bool := List.isSuffixOf p.data s.data

/-- `HTTPHandler.can_handle`: `url.startswith(('http://', 'https://'))`. -/
def http_can_handle (url : String) : Bool :=
  str_startswith url "http://" || str_startswith url "https://"

/-- `TorrentHandler.can_handle`. -/
def torrent_can_handle (url : String) : Bool :=
  str_startswith url "magnet:" || str_endswith url ".torrent"

/-- The registration order hard-coded in `ProtocolManager.__init__`;
the YouTube predicate consults the external `yt_dlp` extractor list and
is abstracted as a parameter. -/
def default_handlers (youtube : String → Bool) : List Handler :=
  [⟨"http", http_can_handle⟩, ⟨"torrent", torrent_can_handle⟩,
   ⟨"youtube", youtube⟩]

theorem get_handler_first (handlers : List Handler) (url : String)
    (h : Handler) :
    get_handler handlers url = some h ↔
      ∃ i, i < handlers.length ∧
        handlers.getD i ⟨"", fun _ => false⟩ = h ∧
        h.can_handle url = true ∧
        ∀ j, j < i →
          (handlers.getD j ⟨"", fun _ => false⟩).can_handle url = false := by
  induction handlers with
  | nil => simp [get_handler]
  | cons a rest ih =>
    by_cases ha : a.can_handle url = true
    · rw [show get_handler (a :: rest) url = some a by
        simp only [get_handler]; rw [if_pos ha]]
      constructor
      · intro he
        injection he with he
        subst he
        exact ⟨0, by simp, by simp, ha, fun j hj => absurd hj (by omega)⟩
      · rintro ⟨i, hi, hgd, hch, hmin⟩
        cases i with
        | zero =>
          simp only [List.getD_cons_zero] at hgd
          rw [hgd]
        | succ k =>
          have h0 := hmin 0 (Nat.succ_pos k)
          simp only [List.getD_cons_zero] at h0
          rw [ha] at h0
          cases h0
    · have haf : a.can_handle url = false := by
        cases hcase : a.can_handle url
        · rfl
        · exact absurd hcase ha
      rw [show get_handler (a :: rest) url = get_handler rest url by
        simp only [get_handler]; rw [if_neg ha]]
      rw [ih]
      constructor
      · rintro ⟨i, hi, hgd, hch, hmin⟩
        refine ⟨i + 1, by simpa using hi, by simpa using hgd,
          hch, fun j hj => ?_⟩
        cases j with
        | zero =>
          simpa only [List.getD_cons_zero] using haf
        | succ m =>
          simp only [List.getD_cons_succ]
          exact hmin m (by omega)
      · rintro ⟨i, hi, hgd, hch, hmin⟩
        cases i with
        | zero =>
          simp only [List.getD_cons_zero] at hgd
          rw [hgd] at haf
          rw [hch] at haf
          cases haf
        | succ k =>
          refine ⟨k, by simpa using hi, by simpa using hgd, hch,
            fun j hj => ?_⟩
          have := hmin (j + 1) (by omega)
          simpa using this

theorem get_handler_none (url : String) : ∀ handlers : List Handler,
    (∀ h ∈ handlers, h.can_handle url = false) →
    get_handler handlers url = none := by
  intro handlers
  induction handlers with
  | nil => intro _; rfl
  | cons a rest ih =>
    intro hnone
    rw [show get_handler (a :: rest) url = get_handler rest url by
      simp only [get_handler]
      rw [if_neg (by simp [hnone a (List.mem_cons_self a rest)])]]
    exact ih fun h hh => hnone h (List.mem_cons_of_mem a hh)

/-- C7: `get_handler` returns exactly the first handler, in
registration order, whose predicate accepts the URL; and when no
registered predicate accepts it, `ProtocolManager.download` raises the
`No handler found` `DownloadError` instead of falling back to any
default handler. -/
theorem registry_dispatch (handlers : List Handler) (url : String) :
    (∀ h : Handler, get_handler handlers url = some h ↔
      ∃ i, i < handlers.length ∧
        handlers.getD i ⟨"", fun _ => false⟩ = h ∧
        h.can_handle url = true ∧
        ∀ j, j < i →
          (handlers.getD j ⟨"", fun _ => false⟩).can_handle url = false) ∧
    ((∀ h ∈ handlers, h.can_handle url = false) →
      pm_download handlers url =
        .error (.downloadError ("No handler found for URL: " ++ url))) := by
  refine ⟨fun h => get_handler_first handlers url h, fun hnone => ?_⟩
  unfold pm_download
  rw [get_handler_none url handlers hnone]

/-- Witness for C7: with the hard-coded registration order (and a
YouTube predicate rejecting everything), dispatching `ftp://x` — which
no predicate accepts — raises the `No handler found` error. -/
theorem registry_dispatch_witness :
    pm_download (default_handlers fun _ => false) "ftp://x" =
      .error (.downloadError ("No handler found for URL: " ++ "ftp://x")) :=
  (registry_dispatch (default_handlers fun _ => false) "ftp://x").2
    (by decide)

/-! ### The download ledger (`DownloadTracker`) -/

/-- Python-dict assignment `self.active_downloads[url] = info`: replace
the value at the first occurrence of the key (keys are unique in a real
dict, and insertion order is preserved), else append. -/
def dictSet (m : List (String × DownloadInfo)) (k : String)
    (v : DownloadInfo) : List (String × DownloadInfo) :=
  match m with
  | [] => [(k, v)]
  | (k0, v0) :: rest =>
    if k0 = k then (k, v) :: rest else (k0, v0) :: dictSet rest k v

/-- Dict lookup, also serving as the `url in self.active_downloads`
test. -/
def dictGet (m : List (String × DownloadInfo)) (k : String) :
    Option DownloadInfo :=
  match m with
  | [] => none
  | (k0, v0) :: rest => if k0 = k then some v0 else dictGet rest k

/-- The tracker state: the insertion-ordered `active_downloads` dict
and the `history` list (each history entry is the full `asdict`
snapshot, carrying the same fields as the record). -/
structure Tracker where
  active : List (String × DownloadInfo)
  history : List DownloadInfo

/-- `DownloadTracker.add_download(download_info)`: store the record
under its url and append an `asdict` snapshot to history
(`save_history` then rewrites the whole store; persistence failures are
printed and swallowed, so the state is as modelled). -/
def add_download (t : Tracker) (d : DownloadInfo) : Tracker :=
  { active := dictSet t.active d.url d, history := t.history ++ [d] }

/-- The keyword arguments of one `update_download` call: `none` means
the field is not among the kwargs. -/
structure Changes where
  url : Option String := none
  file_type : Option String := none
  status : Option String := none
  progress : Option Rat := none
  started_at : Option Nat := none
  completed_at : Option (Option Nat) := none
  file_size : Option (Option Int) := none
  download_path : Option String := none
  checksum : Option (Option String) := none
  speed : Option (Option String) := none
  error : Option (Option String) := none
  metadata : Option (List (String × String)) := none

/-- The `setattr` loop of `update_download`: every supplied field
overwrites the record's field; unsupplied fields are untouched. -/
def applyChanges (d : DownloadInfo) (c : Changes) : DownloadInfo :=
  { url := c.url.getD d.url,
    file_type := c.file_type.getD d.file_type,
    status := c.status.getD d.status,
    progress := c.progress.getD d.progress,
    started_at := c.started_at.getD d.started_at,
    completed_at := c.completed_at.getD d.completed_at,
    file_size := c.file_size.getD d.file_size,
    download_path := c.download_path.getD d.download_path,
    checksum := c.checksum.getD d.checksum,
    speed := c.speed.getD d.speed,
    error := c.error.getD d.error,
    metadata := c.metadata.getD d.metadata }

/-- `entry.update(asdict(download_info))` applied (then `break`) to the
FIRST history entry whose `url` field matches; all other entries are
untouched. -/
def rewriteFirst : List DownloadInfo → String → DownloadInfo →
    List DownloadInfo
  | [], _, _ => []
  | h :: rest, url, d =>
    if h.url = url then d :: rest else h :: rewriteFirst rest url d

/-- `DownloadTracker.update_download(url, **kwargs)`: a no-op when the
url is not an active key; otherwise mutate the stored record in place
(same dict position) and rewrite the first matching history entry. -/
def update_download (t : Tracker) (url : String) (c : Changes) : Tracker :=
  match dictGet t.active url with
  | none => t
  | some d =>
    let d2 := applyChanges d c
    { active := dictSet t.active url d2,
      history := rewriteFirst t.history url d2 }

/-- `DownloadTracker.get_active_downloads()`. -/
def get_active_downloads (t : Tracker) : List DownloadInfo :=
  t.active.map Prod.snd

theorem dictGet_dictSet_same (m : List (String × DownloadInfo))
    (k : String) (v : DownloadInfo) : dictGet (dictSet m k v) k = some v := by
  induction m with
  | nil => simp [dictSet, dictGet]
  | cons p rest ih =>
    obtain ⟨k0, v0⟩ := p
    by_cases h : k0 = k
    · simp [dictSet, h, dictGet]
    · simp only [dictSet, if_neg h, dictGet]
      exact ih

theorem dictGet_dictSet_other (m : List (String × DownloadInfo))
    (k k2 : String) (v : DownloadInfo) (h : k2 ≠ k) :
    dictGet (dictSet m k v) k2 = dictGet m k2 := by
  induction m with
  | nil =>
    simp only [dictSet, dictGet]
    rw [if_neg (Ne.symm h)]
  | cons p rest ih =>
    obtain ⟨k0, v0⟩ := p
    by_cases h0 : k0 = k
    · subst h0
      simp only [dictSet, if_pos rfl, dictGet]
      rw [if_neg (Ne.symm h), if_neg (Ne.symm h)]
    · simp only [dictSet, if_neg h0, dictGet]
      by_cases h2 : k0 = k2
      · rw [if_pos h2, if_pos h2]
      · rw [if_neg h2, if_neg h2]
        exact ih

theorem mem_snd_dictSet (m : List (String × DownloadInfo)) (k : String)
    (v : DownloadInfo) : v ∈ (dictSet m k v).map Prod.snd := by
  induction m with
  | nil => simp [dictSet]
  | cons p rest ih =>
    obtain ⟨k0, v0⟩ := p
    by_cases h : k0 = k
    · simp [dictSet, h]
    · simp only [dictSet, if_neg h, List.map_cons]
      exact List.mem_cons_of_mem _ ih

theorem rewriteFirst_append (url : String) (d2 : DownloadInfo) :
    ∀ (pre : List DownloadInfo), (∀ x ∈ pre, x.url ≠ url) →
    ∀ (d1 : DownloadInfo), d1.url = url → ∀ post : List DownloadInfo,
    rewriteFirst (pre ++ d1 :: post) url d2 = pre ++ d2 :: post := by
  intro pre
  induction pre with
  | nil =>
    intro _ d1 hd1 post
    simp [rewriteFirst, hd1]
  | cons x xs ih =>
    intro hpre d1 hd1 post
    simp only [List.cons_append, rewriteFirst,
      if_neg (hpre x (List.mem_cons_self x xs)), List.append_eq]
    rw [ih (fun y hy => hpre y (List.mem_cons_of_mem x hy)) d1 hd1 post]

/-- C8: recording a transfer record makes it appear (as an equal value)
in the active query; and updating a recorded url overwrites exactly the
supplied fields of the stored record, leaves every other field and
every other key unchanged, and rewrites exactly the first history entry
whose url matches. -/
theorem ledger_record_and_update
    (t : Tracker) (d : DownloadInfo) (url : String) (c : Changes)
    (d0 : DownloadInfo)
    (hget : dictGet t.active url = some d0) :
    (d ∈ get_active_downloads (add_download t d)) ∧
    (dictGet (update_download t url c).active url =
      some (applyChanges d0 c)) ∧
    (∀ k, k ≠ url →
      dictGet (update_download t url c).active k = dictGet t.active k) ∧
    (c.url = none → (applyChanges d0 c).url = d0.url) ∧
    (c.file_type = none → (applyChanges d0 c).file_type = d0.file_type) ∧
    (c.status = none → (applyChanges d0 c).status = d0.status) ∧
    (c.progress = none → (applyChanges d0 c).progress = d0.progress) ∧
    (c.started_at = none → (applyChanges d0 c).started_at = d0.started_at) ∧
    (c.completed_at = none →
      (applyChanges d0 c).completed_at = d0.completed_at) ∧
    (c.file_size = none → (applyChanges d0 c).file_size = d0.file_size) ∧
    (c.download_path = none →
      (applyChanges d0 c).download_path = d0.download_path) ∧
    (c.checksum = none → (applyChanges d0 c).checksum = d0.checksum) ∧
    (c.speed = none → (applyChanges d0 c).speed = d0.speed) ∧
    (c.error = none → (applyChanges d0 c).error = d0.error) ∧
    (c.metadata = none → (applyChanges d0 c).metadata = d0.metadata) ∧
    (∀ v, c.status = some v → (applyChanges d0 c).status = v) ∧
    (∀ v, c.progress = some v → (applyChanges d0 c).progress = v) ∧
    (∀ v, c.error = some v → (applyChanges d0 c).error = v) ∧
    ((update_download t url c).history =
      rewriteFirst t.history url (applyChanges d0 c)) ∧
    (∀ pre d1 post, t.history = pre ++ d1 :: post →
      (∀ x ∈ pre, x.url ≠ url) → d1.url = url →
      (update_download t url c).history =
        pre ++ applyChanges d0 c :: post) := by
  have hupd : update_download t url c =
      { active := dictSet t.active url (applyChanges d0 c),
        history := rewriteFirst t.history url (applyChanges d0 c) } := by
    unfold update_download
    rw [hget]
  refine ⟨mem_snd_dictSet t.active d.url d, ?_, ?_,
    fun h => by simp [applyChanges, h], fun h => by simp [applyChanges, h],
    fun h => by simp [applyChanges, h], fun h => by simp [applyChanges, h],
    fun h => by simp [applyChanges, h], fun h => by simp [applyChanges, h],
    fun h => by simp [applyChanges, h], fun h => by simp [applyChanges, h],
    fun h => by simp [applyChanges, h], fun h => by simp [applyChanges, h],
    fun h => by simp [applyChanges, h], fun h => by simp [applyChanges, h],
    fun v h => by simp [applyChanges, h], fun v h => by simp [applyChanges, h],
    fun v h => by simp [applyChanges, h], ?_, ?_⟩
  · rw [hupd]
    exact dictGet_dictSet_same t.active url (applyChanges d0 c)
  · intro k hk
    rw [hupd]
    exact dictGet_dictSet_other t.active url k (applyChanges d0 c) hk
  · rw [hupd]
  · intro pre d1 post hh hpre hd1
    rw [hupd]
    show rewriteFirst t.history url (applyChanges d0 c) = _
    rw [hh]
    exact rewriteFirst_append url (applyChanges d0 c) pre hpre d1 hd1 post

/-- A concrete transfer record used by the C8 witness. -/
def sampleInfo (u st : String) : DownloadInfo :=
  { url := u, file_type := "http", status := st, progress := 0,
    started_at := 0, completed_at := none, file_size := none,
    download_path := "p", checksum := none, speed := none,
    error := none, metadata := [] }

/-- Witness for C8, on a tracker holding one active record for `"u"`
and a two-entry history, updating only the `status` field. -/
theorem ledger_record_and_update_witness :
    ((sampleInfo "v" "starting") ∈ get_active_downloads
      (add_download
        { active := [("u", sampleInfo "u" "starting")],
          history := [sampleInfo "x" "completed", sampleInfo "u" "starting"] }
        (sampleInfo "v" "starting"))) ∧
    (dictGet (update_download
        { active := [("u", sampleInfo "u" "starting")],
          history := [sampleInfo "x" "completed", sampleInfo "u" "starting"] }
        "u" { status := some "failed" }).active "u" =
      some (applyChanges (sampleInfo "u" "starting")
        { status := some "failed" })) ∧
    (∀ k, k ≠ "u" →
      dictGet (update_download
        { active := [("u", sampleInfo "u" "starting")],
          history := [sampleInfo "x" "completed", sampleInfo "u" "starting"] }
        "u" { status := some "failed" }).active k =
      dictGet [("u", sampleInfo "u" "starting")] k) ∧
    (({ status := some "failed" } : Changes).url = none →
      (applyChanges (sampleInfo "u" "starting")
        { status := some "failed" }).url = (sampleInfo "u" "starting").url) ∧
    (({ status := some "failed" } : Changes).file_type = none →
      (applyChanges (sampleInfo "u" "starting")
        { status := some "failed" }).file_type =
        (sampleInfo "u" "starting").file_type) ∧
    (({ status := some "failed" } : Changes).status = none →
      (applyChanges (sampleInfo "u" "starting")
        { status := some "failed" }).status =
        (sampleInfo "u" "starting").status) ∧
    (({ status := some "failed" } : Changes).progress = none →
      (applyChanges (sampleInfo "u" "starting")
        { status := some "failed" }).progress =
        (sampleInfo "u" "starting").progress) ∧
    (({ status := some "failed" } : Changes).started_at = none →
      (applyChanges (sampleInfo "u" "starting")
        { status := some "failed" }).started_at =
        (sampleInfo "u" "starting").started_at) ∧
    (({ status := some "failed" } : Changes).completed_at = none →
      (applyChanges (sampleInfo "u" "starting")
        { status := some "failed" }).completed_at =
        (sampleInfo "u" "starting").completed_at) ∧
    (({ status := some "failed" } : Changes).file_size = none →
      (applyChanges (sampleInfo "u" "starting")
        { status := some "failed" }).file_size =
        (sampleInfo "u" "starting").file_size) ∧
    (({ status := some "failed" } : Changes).download_path = none →
      (applyChanges (sampleInfo "u" "starting")
        { status := some "failed" }).download_path =
        (sampleInfo "u" "starting").download_path) ∧
    (({ status := some "failed" } : Changes).checksum = none →
      (applyChanges (sampleInfo "u" "starting")
        { status := some "failed" }).checksum =
        (sampleInfo "u" "starting").checksum) ∧
    (({ status := some "failed" } : Changes).speed = none →
      (applyChanges (sampleInfo "u" "starting")
        { status := some "failed" }).speed =
        (sampleInfo "u" "starting").speed) ∧
    (({ status := some "failed" } : Changes).error = none →
      (applyChanges (sampleInfo "u" "starting")
        { status := some "failed" }).error =
        (sampleInfo "u" "starting").error) ∧
    (({ status := some "failed" } : Changes).metadata = none →
      (applyChanges (sampleInfo "u" "starting")
        { status := some "failed" }).metadata =
        (sampleInfo "u" "starting").metadata) ∧
    (∀ v, ({ status := some "failed" } : Changes).status = some v →
      (applyChanges (sampleInfo "u" "starting")
        { status := some "failed" }).status = v) ∧
    (∀ v, ({ status := some "failed" } : Changes).progress = some v →
      (applyChanges (sampleInfo "u" "starting")
        { status := some "failed" }).progress = v) ∧
    (∀ v, ({ status := some "failed" } : Changes).error = some v →
      (applyChanges (sampleInfo "u" "starting")
        { status := some "failed" }).error = v) ∧
    ((update_download
        { active := [("u", sampleInfo "u" "starting")],
          history := [sampleInfo "x" "completed", sampleInfo "u" "starting"] }
        "u" { status := some "failed" }).history =
      rewriteFirst
        [sampleInfo "x" "completed", sampleInfo "u" "starting"] "u"
        (applyChanges (sampleInfo "u" "starting")
          { status := some "failed" })) ∧
    (∀ pre d1 post,
      ([sampleInfo "x" "completed", sampleInfo "u" "starting"] :
        List DownloadInfo) = pre ++ d1 :: post →
      (∀ x ∈ pre, x.url ≠ "u") → d1.url = "u" →
      (update_download
        { active := [("u", sampleInfo "u" "starting")],
          history := [sampleInfo "x" "completed", sampleInfo "u" "starting"] }
        "u" { status := some "failed" }).history =
        pre ++ applyChanges (sampleInfo "u" "starting")
          { status := some "failed" } :: post) :=
  ledger_record_and_update
    { active := [("u", sampleInfo "u" "starting")],
      history := [sampleInfo "x" "completed", sampleInfo "u" "starting"] }
    (sampleInfo "v" "starting") "u" { status := some "failed" }
    (sampleInfo "u" "starting") (by simp [dictGet])

/-! ### Checksum verification (`AsyncDownloader.verify_checksum`)

`hashlib.sha256` is an external library; it is embedded as an actual
SHA-256 implementation over byte lists, with the hashlib object
semantics: `update` appends to the message consumed so far and
`hexdigest` hashes the accumulated message. -/

/-- Fuelled worker for `chunksOfLen`; the fuel is an upper bound on the
list length, so the fuel-exhausted arm is never taken at the call
below.  Structural recursion keeps the function kernel-reducible. -/
def chunksGo (n : Nat) : Nat → List α → List (List α)
  | _, [] => []
  | 0, _ :: _ => []
  | fuel + 1, x :: xs =>
    if n = 0 then []
    else (x :: xs).take n :: chunksGo n fuel ((x :: xs).drop n)

/-- Split a list into consecutive pieces of length `n` (the last may be
shorter).  This is both the 64-byte block split of SHA-256 and the
semantics of the `f.read(buffer_size)` loop: for `n = 0` the read
returns `b''` at once and the loop ends with nothing consumed. -/
def chunksOfLen (n : Nat) (l : List α) : List (List α) :=
  chunksGo n l.length l

/-- 32-bit rotate right. -/
def rotr32 (x n : Nat) : Nat :=
  ((x >>> n) ||| (x <<< (32 - n))) % 4294967296

def smallSigma0 (x : Nat) : Nat :=
  (rotr32 x 7) ^^^ (rotr32 x 18) ^^^ (x >>> 3)

def smallSigma1 (x : Nat) : Nat :=
  (rotr32 x 17) ^^^ (rotr32 x 19) ^^^ (x >>> 10)

def bigSigma0 (x : Nat) : Nat :=
  (rotr32 x 2) ^^^ (rotr32 x 13) ^^^ (rotr32 x 22)

def bigSigma1 (x : Nat) : Nat :=
  (rotr32 x 6) ^^^ (rotr32 x 11) ^^^ (rotr32 x 25)

/-- The SHA-256 round constants. -/
def sha256K : List Nat :=
  [1116352408, 1899447441, 3049323471,
   3921009573, 961987163, 1508970993,
   2453635748, 2870763221, 3624381080,
   310598401, 607225278, 1426881987,
   1925078388, 2162078206, 2614888103,
   3248222580, 3835390401, 4022224774,
   264347078, 604807628, 770255983,
   1249150122, 1555081692, 1996064986,
   2554220882, 2821834349, 2952996808,
   3210313671, 3336571891, 3584528711,
   113926993, 338241895, 666307205,
   773529912, 1294757372, 1396182291,
   1695183700, 1986661051, 2177026350,
   2456956037, 2730485921, 2820302411,
   3259730800, 3345764771, 3516065817,
   3600352804, 4094571909, 275423344,
   430227734, 506948616, 659060556,
   883997877, 958139571, 1322822218,
   1537002063, 1747873779, 1955562222,
   2024104815, 2227730452, 2361852424,
   2428436474, 2756734187, 3204031479,
   3329325298]

/-- The SHA-256 initial hash value. -/
def sha256H0 : List Nat :=
  [1779033703, 3144134277, 1013904242,
   2773480762, 1359893119, 2600822924,
   528734635, 1541459225]

/-- Merkle–Damgård padding: `0x80`, zeros to 56 mod 64, then the
bit length as 8 big-endian bytes. -/
def sha256pad (msg : List Nat) : List Nat :=
  msg ++ [128] ++
    List.replicate ((56 + 64 - (msg.length + 1) % 64) % 64) 0 ++
    (List.range 8).map (fun k => ((msg.length * 8) >>> (8 * (7 - k))) % 256)

/-- Big-endian 4-byte groups to 32-bit words. -/
def bytesToWords : List Nat → List Nat
  | b0 :: b1 :: b2 :: b3 :: rest =>
    (((b0 * 256 + b1) * 256 + b2) * 256 + b3) :: bytesToWords rest
  | _ => []

/-- The 64-entry message schedule of one block. -/
def scheduleW (block : List Nat) : List Nat :=
  (List.range 64).foldl
    (fun ws t =>
      if t < 16 then ws ++ [block.getD t 0]
      else ws ++ [(smallSigma1 (ws.getD (t - 2) 0) + ws.getD (t - 7) 0 +
        smallSigma0 (ws.getD (t - 15) 0) + ws.getD (t - 16) 0) % 4294967296])
    []

/-- One SHA-256 compression of a 16-word block into the running hash
(a list of 8 words). -/
def compressBlock (h : List Nat) (block : List Nat) : List Nat :=
  let w := scheduleW block
  let state := (List.range 64).foldl
    (fun (s : List Nat) t =>
      match s with
      | [a, b, c, d, e, f0, g, h0] =>
        let ch := (e &&& f0) ^^^ ((e ^^^ 4294967295) &&& g)
        let maj := (a &&& b) ^^^ (a &&& c) ^^^ (b &&& c)
        let t1 := (h0 + bigSigma1 e + ch + sha256K.getD t 0 + w.getD t 0) %
          4294967296
        let t2 := (bigSigma0 a + maj) % 4294967296
        [(t1 + t2) % 4294967296, a, b, c, (d + t1) % 4294967296, e, f0, g]
      | s0 => s0)
    h
  match state, h with
  | [a, b, c, d, e, f0, g, h0], [i0, i1, i2, i3, i4, i5, i6, i7] =>
    [(i0 + a) % 4294967296, (i1 + b) % 4294967296, (i2 + c) % 4294967296,
     (i3 + d) % 4294967296, (i4 + e) % 4294967296, (i5 + f0) % 4294967296,
     (i6 + g) % 4294967296, (i7 + h0) % 4294967296]
  | _, _ => h

/-- SHA-256 of a byte list, as the 32 digest bytes. -/
def sha256bytes (msg : List Nat) : List Nat :=
  let blocks := (chunksOfLen 64 (sha256pad msg)).map bytesToWords
  let final := blocks.foldl compressBlock sha256H0
  final.foldr
    (fun w acc =>
      (w >>> 24) % 256 :: (w >>> 16) % 256 :: (w >>> 8) % 256 :: w % 256 ::
        acc)
    []

/-- Lower-case hex character of a value below 16. -/
def hexChar (n : Nat) : Char :=
  if n < 10 then Char.ofNat (48 + n) else Char.ofNat (87 + n)

/-- Lower-case hex string of a byte list (`hexdigest` format). -/
def toHexStr (bytes : List Nat) : String :=
  String.mk (bytes.foldr
    (fun b acc => hexChar (b / 16) :: hexChar (b % 16) :: acc) [])

/-- A `hashlib.sha256()` object: the message consumed so far. -/
structure Sha256Ctx where
  data : List Nat

/-- `sha256_hash.update(byte_block)`. -/
def Sha256Ctx.update (ctx : Sha256Ctx) (block : List Nat) : Sha256Ctx :=
  { data := ctx.data ++ block }

/-- `sha256_hash.hexdigest()`. -/
def Sha256Ctx.hexdigest (ctx : Sha256Ctx) : String :=
  toHexStr (sha256bytes ctx.data)

/-- `AsyncDownloader.verify_checksum(file_path, expected_checksum)`.
`fs` maps a path to its readable content, or `none` when `open`/`read`
raises; the `except` handler logs and returns `False` in that case.
The read loop feeds `buffer_size`-byte blocks to the digest until
`read` returns `b''`, then compares hex digests. -/
def verify_checksum (fs : String → Option (List Nat)) (file_path : String)
    (expected_checksum : String) (buffer_size : Nat) : Bool :=
  match fs file_path with
  | none => false
  | some content =>
    let ctx := (chunksOfLen buffer_size content).foldl Sha256Ctx.update ⟨[]⟩
    ctx.hexdigest == expected_checksum

set_option maxRecDepth 8000 in
example : toHexStr (sha256bytes []) =
    "e3b0c44298fc1c149afbf4c8996fb92427ae41e4649b934ca495991b7852b855" := by
  rfl

set_option maxRecDepth 8000 in
example : toHexStr (sha256bytes [97, 98, 99]) =
    "ba7816bf8f01cfea414140de5dae2223b00361a396177a9cb410ff61f20015ad" := by
  rfl

theorem chunksGo_join {α : Type} (n : Nat) (hn : n ≠ 0) :
    ∀ (fuel : Nat) (l : List α), l.length ≤ fuel →
    (chunksGo n fuel l).flatten = l := by
  intro fuel
  induction fuel with
  | zero =>
    intro l hl
    cases l with
    | nil => rfl
    | cons x xs => simp at hl
  | succ f ih =>
    intro l hl
    cases l with
    | nil => rfl
    | cons x xs =>
      rw [show chunksGo n (f + 1) (x :: xs) =
          (x :: xs).take n :: chunksGo n f ((x :: xs).drop n) from by
        simp only [chunksGo]; rw [if_neg hn]]
      rw [List.flatten_cons]
      rw [ih ((x :: xs).drop n) (by
        simp only [List.length_drop, List.length_cons]
        simp only [List.length_cons] at hl
        omega)]
      exact List.take_append_drop n (x :: xs)

theorem chunksOfLen_join {α : Type} (n : Nat) (hn : n ≠ 0) (l : List α) :
    (chunksOfLen n l).flatten = l :=
  chunksGo_join n hn l.length l (le_refl _)

theorem foldl_update_data : ∀ (blocks : List (List Nat)) (init : Sha256Ctx),
    (blocks.foldl Sha256Ctx.update init).data = init.data ++ blocks.flatten := by
  intro blocks
  induction blocks with
  | nil => intro init; simp
  | cons b bs ih =>
    intro init
    rw [List.foldl_cons, ih]
    simp [Sha256Ctx.update, List.append_assoc]

/-- The result of `verify_checksum` on a readable file is exactly the
comparison of the streamed hex digest of the whole content with the
expected string: the read loop chunks the content losslessly. -/
theorem verify_checksum_eq (fs : String → Option (List Nat))
    (path expected : String) (bufSize : Nat) (content : List Nat)
    (hfs : fs path = some content) (hbuf : bufSize ≠ 0) :
    verify_checksum fs path expected bufSize =
      (toHexStr (sha256bytes content) == expected) := by
  unfold verify_checksum
  rw [hfs]
  show (((chunksOfLen bufSize content).foldl Sha256Ctx.update
    ⟨[]⟩).hexdigest == expected) = _
  have hdata : ((chunksOfLen bufSize content).foldl Sha256Ctx.update
      ⟨[]⟩).data = content := by
    rw [foldl_update_data]
    simp [chunksOfLen_join bufSize hbuf content]
  unfold Sha256Ctx.hexdigest
  rw [hdata]

/-- Determinism of the checksum contract: two invocations on files with
identical byte content and the same expected digest agree. -/
theorem verify_checksum_deterministic
    (fs1 fs2 : String → Option (List Nat)) (path1 path2 expected : String)
    (bufSize : Nat) (content : List Nat)
    (h1 : fs1 path1 = some content) (h2 : fs2 path2 = some content)
    (hbuf : bufSize ≠ 0) :
    verify_checksum fs1 path1 expected bufSize =
      verify_checksum fs2 path2 expected bufSize := by
  rw [verify_checksum_eq fs1 path1 expected bufSize content h1 hbuf,
      verify_checksum_eq fs2 path2 expected bufSize content h2 hbuf]

/-- A correct digest always matches. -/
theorem verify_checksum_correct_digest
    (fs : String → Option (List Nat)) (path : String) (bufSize : Nat)
    (content : List Nat) (h : fs path = some content) (hbuf : bufSize ≠ 0) :
    verify_checksum fs path (toHexStr (sha256bytes content)) bufSize =
      true := by
  rw [verify_checksum_eq fs path _ bufSize content h hbuf]
  exact beq_self_eq_true _

set_option maxRecDepth 8000 in
/-- Content sensitivity at a concrete instance: flipping the last byte
of `b"abc"` turns a match into a mismatch. -/
theorem verify_checksum_flip_instance :
    verify_checksum (fun _ => some [97, 98, 99]) "p"
      (toHexStr (sha256bytes [97, 98, 99])) 8192 = true ∧
    verify_checksum (fun _ => some [97, 98, 100]) "p"
      (toHexStr (sha256bytes [97, 98, 99])) 8192 = false := by
  exact ⟨by rfl, by rfl⟩

/-- C10: `verify_checksum` never raises — when the file cannot be
opened or read the handler returns `False` — and at the boolean
interface an unreadable file is indistinguishable from a checksum
mismatch: any readable file whose digest differs from the expected
value yields the same `False`. -/
theorem verify_checksum_unreadable_false
    (fs fs2 : String → Option (List Nat)) (path path2 expected : String)
    (bufSize : Nat) (content2 : List Nat)
    (hfs : fs path = none)
    (hfs2 : fs2 path2 = some content2)
    (hbuf : bufSize ≠ 0)
    (hmm : toHexStr (sha256bytes content2) ≠ expected) :
    verify_checksum fs path expected bufSize = false ∧
    verify_checksum fs path expected bufSize =
      verify_checksum fs2 path2 expected bufSize := by
  have h1 : verify_checksum fs path expected bufSize = false := by
    unfold verify_checksum
    rw [hfs]
  have h2 : verify_checksum fs2 path2 expected bufSize = false := by
    rw [verify_checksum_eq fs2 path2 expected bufSize content2 hfs2 hbuf]
    exact beq_eq_false_iff_ne.mpr hmm
  exact ⟨h1, h1.trans h2.symm⟩

set_option maxRecDepth 8000 in
/-- Witness for C10: an unreadable path and the empty readable file,
against an expected value that matches neither. -/
theorem verify_checksum_unreadable_false_witness :
    verify_checksum (fun _ => none) "p" "x" 8192 = false ∧
    verify_checksum (fun _ => none) "p" "x" 8192 =
      verify_checksum (fun _ => some []) "q" "x" 8192 :=
  verify_checksum_unreadable_false (fun _ => none) (fun _ => some [])
    "p" "q" "x" 8192 [] rfl rfl (by norm_num)
    (by rw [show toHexStr (sha256bytes []) =
      "e3b0c44298fc1c149afbf4c8996fb92427ae41e4649b934ca495991b7852b855"
      from rfl]
        decide)

end Dnl
